import Mathlib

/-!
Verification development for the Elasticsearch → OpenSearch migration script
(`es-os-migration.py`).  The Python source is shallowly embedded: JSON values
become the inductive `J`, Python dicts become association lists, each HTTP
response is a record of its status code and the parse outcome of its body,
and Python exceptions become `Except PyErr`.  External systems (the source
and target clusters) are modelled as oracles supplying the responses the
script observes; the requests the script issues are recorded as event traces.
-/

set_option autoImplicit false

namespace ESMig

/-- JSON values, the result of `json.loads` on a response body.
Strings parsed by `json.loads` yield exactly these shapes. -/
inductive J where
  | null : J
  | bool : Bool → J
  | num  : Int → J
  | str  : String → J
  | arr  : List J → J
  | obj  : List (String × J) → J

/-- Python exceptions that the embedded fragments can raise. -/
inductive PyErr where
  | jsonDecodeError
  | attributeError
  | keyError
  | typeError
  deriving DecidableEq, Repr

/-- First-match lookup in an association list, the semantics of indexing a
Python dict (whose keys are unique, so first-match is exact). -/
def lookupJ : List (String × J) → String → Option J
  | [], _ => none
  | (k', v) :: rest, k => if k' = k then some v else lookupJ rest k

/-- Python truthiness of a JSON value (`if not hits:`, `while scroll_id:`). -/
def J.truthy : J → Bool
  | .null => false
  | .bool b => b
  | .num n => n != 0
  | .str s => s ≠ ""
  | .arr l => !l.isEmpty
  | .obj l => !l.isEmpty

/-- Truthiness of an optional value (`None` is falsy). -/
def optTruthy : Option J → Bool
  | none => false
  | some v => v.truthy

/-- `d.get(k, default)`: total on dicts, raises `AttributeError` on
anything that is not a dict. -/
def dictGetD (v : J) (k : String) (dflt : J) : Except PyErr J :=
  match v with
  | .obj kvs => .ok ((lookupJ kvs k).getD dflt)
  | _ => .error .attributeError

/-- `d.get(k)` with no default: yields `None` when the key is absent. -/
def dictGetOpt (v : J) (k : String) : Except PyErr (Option J) :=
  match v with
  | .obj kvs => .ok (lookupJ kvs k)
  | _ => .error .attributeError

/-- `d[k]` subscription with a string key: `KeyError` when absent,
`TypeError` when the value is not a dict. -/
def subscr (v : J) (k : String) : Except PyErr J :=
  match v with
  | .obj kvs =>
      match lookupJ kvs k with
      | some w => .ok w
      | none => .error .keyError
  | _ => .error .typeError

/-- Python iteration `for x in v`: lists yield their elements, dicts their
keys, strings their characters; other values raise `TypeError`. -/
def toIter (v : J) : Except PyErr (List J) :=
  match v with
  | .arr l => .ok l
  | .obj kvs => .ok (kvs.map (fun kv => J.str kv.1))
  | .str s => .ok (s.data.map (fun c => J.str (String.mk [c])))
  | _ => .error .typeError

/-! ## Metadata sanitization (`clean_index_metadata`, lines 205–221) -/

/-- Line 207: the keys stripped from the top level of the settings dict. -/
def forbidden_keys : List String := ["creation_date", "provided_name", "uuid"]

/-- The filter predicate of line 210: `k not in forbidden_keys`. -/
def keepKey (k : String) : Bool := ¬ k ∈ forbidden_keys

/-- The filter predicate of line 214: `k != "created"`. -/
def notCreated (k : String) : Bool := ¬ k = "created"

/-- Line 214: `{k: v for k, v in version.items() if k != "created"}`. -/
def stripCreated (vkvs : List (String × J)) : List (String × J) :=
  vkvs.filter (fun kv => notCreated kv.1)

/-- Lines 210–214 of `clean_index_metadata`, operating on the settings dict:
filter out the forbidden top-level keys, then, if a `version` entry survives
and is a dict, replace it by the same dict without its `created` key. -/
def cleanSettings (settings : List (String × J)) : List (String × J) :=
  let cleaned := settings.filter (fun kv => keepKey kv.1)
  match lookupJ cleaned "version" with
  | some (J.obj vkvs) =>
      cleaned.map (fun kv =>
        if kv.1 = "version" then (kv.1, J.obj (stripCreated vkvs)) else kv)
  | _ => cleaned

/-- The metadata record produced by `get_index_metadata` (lines 55–59). -/
structure Metadata where
  index : String
  settings : J
  mappings : J

/-- Body of the `PUT {index}` creation request (lines 216–219). -/
structure CleanedMetadata where
  settings : List (String × J)
  mappings : J

/-- `clean_index_metadata` (lines 205–221).  Iterating
`metadata["settings"].items()` raises `AttributeError` when the settings
value is not a dict; the mappings pass through untouched. -/
def clean_index_metadata (m : Metadata) : Except PyErr CleanedMetadata :=
  match m.settings with
  | J.obj kvs => .ok { settings := cleanSettings kvs, mappings := m.mappings }
  | _ => .error .attributeError

/-! ### Association-list lemmas -/

theorem lookupJ_keyfilter (q : String → Bool) (l : List (String × J)) (k : String) :
    lookupJ (l.filter (fun kv => q kv.1)) k
      = if q k then lookupJ l k else none := by
  induction l with
  | nil => simp [lookupJ]
  | cons hd tl ih =>
    by_cases hq : q hd.1
    · by_cases hk : hd.1 = k
      · subst hk
        simp [lookupJ, hq, List.filter_cons]
      · simp only [List.filter_cons, hq, if_pos, lookupJ, hk, if_false]
        simpa [lookupJ, hk] using ih
    · by_cases hk : hd.1 = k
      · subst hk
        simp only [List.filter_cons]
        rw [if_neg (by simp [hq])]
        rw [ih]
        simp [hq]
      · simp only [List.filter_cons]
        rw [if_neg (by simp [hq])]
        rw [ih]
        simp [lookupJ, hk]

theorem lookupJ_map_version (newV : J) (l : List (String × J)) (k : String)
    (hk : ¬ k = "version") :
    lookupJ (l.map (fun kv =>
        if kv.1 = "version" then (kv.1, newV) else kv)) k = lookupJ l k := by
  induction l with
  | nil => simp [lookupJ]
  | cons hd tl ih =>
    obtain ⟨k', v'⟩ := hd
    simp only [List.map_cons]
    by_cases hv : k' = "version"
    · have hne : ¬ k' = k := by
        intro h; exact hk (h ▸ hv)
      rw [if_pos hv]
      simp only [lookupJ]
      rw [if_neg hne, if_neg hne, ih]
    · rw [if_neg hv]
      by_cases he : k' = k
      · simp only [lookupJ]
        rw [if_pos he, if_pos he]
      · simp only [lookupJ]
        rw [if_neg he, if_neg he, ih]

theorem lookupJ_map_version_self (newV : J) (l : List (String × J)) :
    lookupJ (l.map (fun kv =>
        if kv.1 = "version" then (kv.1, newV) else kv)) "version"
      = (lookupJ l "version").map (fun _ => newV) := by
  induction l with
  | nil => simp [lookupJ]
  | cons hd tl ih =>
    obtain ⟨k', v'⟩ := hd
    simp only [List.map_cons]
    by_cases hv : k' = "version"
    · rw [if_pos hv]
      simp only [lookupJ]
      rw [if_pos hv, if_pos hv]
      simp
    · rw [if_neg hv]
      simp only [lookupJ]
      rw [if_neg hv, if_neg hv, ih]

theorem lookup_stripCreated (v : List (String × J)) :
    lookupJ (stripCreated v) "created" = none := by
  rw [stripCreated, lookupJ_keyfilter]
  simp [notCreated]

/-- Characterization of key lookup in the sanitized settings: forbidden keys
are gone, a dict-valued `version` loses its `created` entry, everything else
is preserved. -/
theorem lookup_cleanSettings (kvs : List (String × J)) (k : String) :
    lookupJ (cleanSettings kvs) k =
      if keepKey k = false then none
      else if k = "version" then
        match lookupJ kvs "version" with
        | some (J.obj v) => some (J.obj (stripCreated v))
        | o => o
      else lookupJ kvs k := by
  have hver : lookupJ (kvs.filter fun kv => keepKey kv.1) "version"
      = lookupJ kvs "version" := by
    rw [lookupJ_keyfilter]
    rw [if_pos (show keepKey "version" = true by decide)]
  simp only [cleanSettings]
  rw [hver]
  by_cases hkk : keepKey k = false
  · have hkv : ¬ k = "version" := by
      intro h
      rw [h] at hkk
      exact absurd hkk (by decide)
    rw [if_pos hkk]
    cases m : lookupJ kvs "version" with
    | none =>
        rw [lookupJ_keyfilter, if_neg (by simp [hkk])]
    | some w =>
        cases w <;>
          simp only [] <;>
          first
          | (rw [lookupJ_map_version _ _ _ hkv, lookupJ_keyfilter,
              if_neg (by simp [hkk])])
          | (rw [lookupJ_keyfilter, if_neg (by simp [hkk])])
  · rw [if_neg hkk]
    have hkk' : keepKey k = true := by
      cases h : keepKey k
      · exact absurd h hkk
      · rfl
    by_cases hkv : k = "version"
    · subst hkv
      rw [if_pos rfl]
      cases m : lookupJ kvs "version" with
      | none =>
          rw [lookupJ_keyfilter, if_pos (by simp [hkk']), m]
      | some w =>
          cases w <;>
            simp only [] <;>
            first
            | (rw [lookupJ_map_version_self, lookupJ_keyfilter,
                if_pos (by simp [hkk']), m, Option.map_some'])
            | (rw [lookupJ_keyfilter, if_pos (by simp [hkk']), m])
    · rw [if_neg hkv]
      cases m : lookupJ kvs "version" with
      | none =>
          rw [lookupJ_keyfilter, if_pos (by simp [hkk'])]
      | some w =>
          cases w <;>
            simp only [] <;>
            first
            | (rw [lookupJ_map_version _ _ _ hkv, lookupJ_keyfilter,
                if_pos (by simp [hkk'])])
            | (rw [lookupJ_keyfilter, if_pos (by simp [hkk'])])

/-- C1: for every input settings mapping, `clean_index_metadata` removes
`creation_date`, `provided_name` and `uuid`, removes `created` from a
dict-valued `version` sub-mapping, contains no forbidden key regardless of
the source content, preserves every other settings entry (including a
non-dict `version` value), and passes the mappings through unchanged. -/
theorem clean_index_metadata_sanitizes (idx : String) (kvs : List (String × J))
    (mp : J) :
    ∃ c, clean_index_metadata ⟨idx, J.obj kvs, mp⟩ = .ok c
      ∧ c.mappings = mp
      ∧ (∀ k, k ∈ forbidden_keys → lookupJ c.settings k = none)
      ∧ (∀ v, lookupJ c.settings "version" = some (J.obj v) →
            lookupJ v "created" = none)
      ∧ (∀ k, ¬ k ∈ forbidden_keys → ¬ k = "version" →
            lookupJ c.settings k = lookupJ kvs k)
      ∧ (∀ v, lookupJ kvs "version" = some (J.obj v) →
            lookupJ c.settings "version" = some (J.obj (stripCreated v)))
      ∧ (∀ v, lookupJ kvs "version" = some v → (∀ w, ¬ v = J.obj w) →
            lookupJ c.settings "version" = some v) := by
  refine ⟨⟨cleanSettings kvs, mp⟩, rfl, rfl, ?_, ?_, ?_, ?_, ?_⟩
  · intro k hk
    have hkk : keepKey k = false := by
      simp only [forbidden_keys, List.mem_cons, List.mem_singleton,
        List.not_mem_nil, or_false] at hk
      rcases hk with h | h | h <;> subst h <;> decide
    rw [lookup_cleanSettings, if_pos hkk]
  · intro v hv
    rw [lookup_cleanSettings] at hv
    rw [if_neg (show ¬ keepKey "version" = false by decide), if_pos rfl] at hv
    cases m : lookupJ kvs "version" with
    | none => rw [m] at hv; exact absurd hv (by simp)
    | some w =>
        rw [m] at hv
        cases w <;> simp only [] at hv <;> cases hv
        exact lookup_stripCreated _
  · intro k hk hkv
    have hkk : ¬ keepKey k = false := by
      simp [keepKey, hk]
    rw [lookup_cleanSettings, if_neg hkk, if_neg hkv]
  · intro v hv
    rw [lookup_cleanSettings,
      if_neg (show ¬ keepKey "version" = false by decide), if_pos rfl, hv]
  · intro v hv hno
    rw [lookup_cleanSettings,
      if_neg (show ¬ keepKey "version" = false by decide), if_pos rfl, hv]
    cases v with
    | obj w => exact absurd rfl (hno w)
    | null => rfl
    | bool b => rfl
    | num n => rfl
    | str s => rfl
    | arr l => rfl

/-- Concrete settings dict exercising every sanitization case (from the
end-to-end example of the spec, extended with all forbidden keys). -/
def sampleSettings : List (String × J) :=
  [("number_of_shards", J.str "1"),
   ("creation_date", J.str "1690000000000"),
   ("provided_name", J.str "orders"),
   ("uuid", J.str "abc123"),
   ("version", J.obj [("created", J.str "8000099"), ("upgraded", J.str "8")])]

theorem clean_index_metadata_sanitizes_witness :
    ∃ c, clean_index_metadata ⟨"orders", J.obj sampleSettings, J.obj []⟩ = .ok c
      ∧ lookupJ c.settings "creation_date" = none
      ∧ lookupJ c.settings "uuid" = none
      ∧ (∀ v, lookupJ c.settings "version" = some (J.obj v) →
            lookupJ v "created" = none)
      ∧ lookupJ c.settings "number_of_shards" = lookupJ sampleSettings "number_of_shards" := by
  obtain ⟨c, hc, hmp, hforb, hver, hkeep, hvobj, hvother⟩ :=
    clean_index_metadata_sanitizes "orders" sampleSettings (J.obj [])
  exact ⟨c, hc, hforb _ (by decide), hforb _ (by decide), hver,
    hkeep _ (by decide) (by decide)⟩

/-! ## Document migration (`migrate_index`, lines 92–175) -/

/-- An HTTP response as the script observes it: the status code and the
parse outcome of the body (`none` models a body on which `response.json()`
raises). -/
structure Resp where
  status : Nat
  body : Option J

/-- `response.json()`: raises on an unparseable body. -/
def respJson (r : Resp) : Except PyErr J :=
  match r.body with
  | some j => .ok j
  | none => .error .jsonDecodeError

/-- One action/source pair of the bulk payload (lines 125–128): the action
line carries the target index name and the document's `_id`, the second
line is the document's `_source`.  NDJSON serialization is abstracted to
this structure; the whole batch goes out as one `POST /_bulk` request. -/
structure BulkLine where
  docIndex : String
  docId : J
  docSource : J

/-- The requests one `migrate_index` task issues, in order. -/
inductive Event where
  | reqOpen                            -- POST {index}/_search?scroll=…  (line 104)
  | reqBulk (payload : List BulkLine)  -- POST /_bulk?refresh=false      (line 137)
  | reqCont                            -- POST /_search/scroll           (line 152)
  | reqRefresh                         -- POST {index}/_refresh          (line 165)

/-- The network as one task sees it: the response to the opening scroll
request, to the k-th bulk request, to the k-th scroll continuation, and to
the final refresh. -/
structure Env where
  openResp : Resp
  bulkResp : Nat → Resp
  contResp : Nat → Resp
  refreshResp : Resp

/-- How the `while` loop of lines 118–160 was left. -/
inductive LoopExit where
  | normal    -- a `break` or a falsy scroll id: execution continues at line 162
  | bulkFail  -- the `return` of line 149
  | fuelOut   -- artifact of the fuel-bounded embedding
  deriving DecidableEq

/-- Terminal observation of one task. -/
inductive TaskEnd where
  | openFailed                   -- the `return` of line 107
  | bulkFailed                   -- the `return` of line 149: no refresh, no completion log
  | finalized (refreshOk : Bool) -- lines 162–172 ran: refresh issued and the
                                 -- completion log of line 172 emitted
  | fuelOut
  deriving DecidableEq

/-- What `migrate_index` hands back to the thread pool: either a normal end
carrying the migrated-document count and the request trace, or an exception
caught and logged by the `except` of lines 174–175. -/
inductive TaskResult where
  | ended (e : TaskEnd) (migrated : Nat) (events : List Event)
  | caught (err : PyErr)

/-- Lines 125–128: the bulk payload built from the hits, preserving each
document's `_id`.  Subscripting raises `KeyError` when a hit lacks `_id`
or `_source` and `TypeError` when it is not a dict. -/
def buildPayload (indexName : String) : List J → Except PyErr (List BulkLine)
  | [] => .ok []
  | doc :: rest =>
    match subscr doc "_id" with
    | .error e => .error e
    | .ok i =>
      match subscr doc "_source" with
      | .error e => .error e
      | .ok s =>
        match buildPayload indexName rest with
        | .error e => .error e
        | .ok tl => .ok (⟨indexName, i, s⟩ :: tl)

/-- The `while scroll_id:` loop of lines 118–160.  `resp` is the response
whose hits are processed next, `sid` the current scroll id (a Python value,
`none` for `None`), `migrated` the running count, `k` the number of
completed iterations (indexing the bulk and continuation oracles), `evs`
the requests issued so far.  Fuel bounds the recursion. -/
def migrateLoop (env : Env) (indexName : String) :
    Nat → Resp → Option J → Nat → Nat → List Event →
    Except PyErr (LoopExit × Nat × List Event)
  | 0, _, _, migrated, _, evs => .ok (.fuelOut, migrated, evs)
  | fuel + 1, resp, sid, migrated, k, evs =>
    if optTruthy sid = false then .ok (.normal, migrated, evs)
    else
      match respJson resp with
      | .error e => .error e
      | .ok j =>
        match dictGetD j "hits" (J.obj []) with
        | .error e => .error e
        | .ok h1 =>
          match dictGetD h1 "hits" (J.arr []) with
          | .error e => .error e
          | .ok hits =>
            if hits.truthy = false then .ok (.normal, migrated, evs)
            else
              match toIter hits with
              | .error e => .error e
              | .ok hlist =>
                match buildPayload indexName hlist with
                | .error e => .error e
                | .ok payload =>
                  let evs1 := evs ++ [Event.reqBulk payload]
                  if (env.bulkResp k).status = 200 then
                    let migrated1 := migrated + hlist.length
                    let evs2 := evs1 ++ [Event.reqCont]
                    if ¬ (env.contResp k).status = 200 then
                      .ok (.normal, migrated1, evs2)
                    else
                      match respJson (env.contResp k) with
                      | .error e => .error e
                      | .ok cj =>
                        match dictGetOpt cj "_scroll_id" with
                        | .error e => .error e
                        | .ok sid1 =>
                          if optTruthy sid1 = false then
                            .ok (.normal, migrated1, evs2)
                          else
                            migrateLoop env indexName fuel (env.contResp k)
                              sid1 migrated1 (k + 1) evs2
                  else .ok (.bulkFail, migrated, evs1)

/-- Lines 96–172: the body of `migrate_index` inside the `try`.  `.error`
is a Python exception escaping to the handler of line 174. -/
def migrateBody (env : Env) (indexName : String) (fuel : Nat) :
    Except PyErr (TaskEnd × Nat × List Event) :=
  if ¬ env.openResp.status = 200 then .ok (.openFailed, 0, [Event.reqOpen])
  else
    match respJson env.openResp with
    | .error e => .error e
    | .ok j =>
      match dictGetOpt j "_scroll_id" with                       -- line 109
      | .error e => .error e
      | .ok sid =>
        match dictGetD j "hits" (J.obj []) with                  -- line 110
        | .error e => .error e
        | .ok h1 =>
          match dictGetD h1 "total" (J.obj []) with
          | .error e => .error e
          | .ok tot =>
            match dictGetD tot "value" (J.num 0) with
            | .error e => .error e
            | .ok _totVal =>
              match migrateLoop env indexName fuel env.openResp sid 0 0
                  [Event.reqOpen] with
              | .error e => .error e
              | .ok (.bulkFail, m, evs) => .ok (.bulkFailed, m, evs)
              | .ok (.fuelOut, m, evs) => .ok (.fuelOut, m, evs)
              | .ok (.normal, m, evs) =>
                  .ok (.finalized (decide (env.refreshResp.status = 200)), m,
                    evs ++ [Event.reqRefresh])

/-- `migrate_index` (lines 92–175): the whole body runs inside `try`, and
the `except Exception` of line 174 catches any exception and merely logs
it, so the task always returns normally to the thread pool. -/
def migrate_index (env : Env) (indexName : String) (fuel : Nat) :
    Except PyErr TaskResult :=
  match migrateBody env indexName fuel with
  | .ok (e, m, evs) => .ok (.ended e m evs)
  | .error err => .ok (.caught err)

/-! ## A scripted scroll source -/

/-- A document as served by the scroll API: `{"_id": i, "_source": s}`. -/
def mkDoc (d : String × J) : J :=
  J.obj [("_id", J.str d.1), ("_source", d.2)]

/-- A scroll page body: optional `_scroll_id`, the reported total (which the
code must not consult for termination), and the hits. -/
def pageBody (sid : Option String) (total : Int) (docs : List (String × J)) : J :=
  J.obj ((sid.map (fun s => ("_scroll_id", J.str s))).toList ++
    [("hits", J.obj [("total", J.obj [("value", J.num total)]),
                     ("hits", J.arr (docs.map mkDoc))])])

/-- A scripted scroll source: the documents grouped into the pages the
backend serves, the reported total, which bulk loads and which
continuations succeed, whether the final empty continuation still carries a
scroll id, and the refresh status. -/
structure SrcSpec where
  pages : List (List (String × J))
  total : Int
  bulkOK : Nat → Bool
  contOK : Nat → Bool
  lastId : Bool
  refreshStatus : Nat

/-- Scroll id carried by the response at page position `pos` (position 0 is
the opening response): present while pages remain, and on the final empty
page only when `lastId` is set. -/
def sidAt (s : SrcSpec) (pos : Nat) : Option String :=
  if pos = 0 then some "scroll0"
  else if (s.pages.drop pos).isEmpty ∧ s.lastId = false then none
  else some "scroll"

/-- The (successful) scroll response serving page position `pos`. -/
def pageRespAt (s : SrcSpec) (pos : Nat) : Resp :=
  { status := 200
    body := some (pageBody (sidAt s pos) s.total ((s.pages.drop pos).headD [])) }

/-- The environment one task sees when talking to the scripted source. -/
def mkEnv (s : SrcSpec) : Env where
  openResp := pageRespAt s 0
  bulkResp k :=
    { status := if s.bulkOK k then 200 else 400, body := some (J.obj []) }
  contResp k :=
    if s.contOK k then pageRespAt s (k + 1)
    else { status := 500, body := some (J.obj [("error", J.str "scroll expired")]) }
  refreshResp := { status := s.refreshStatus, body := some (J.obj []) }

/-- The bulk payload the code builds for one page. -/
def encodeBatch (indexName : String) (page : List (String × J)) : List BulkLine :=
  page.map (fun d => ⟨indexName, J.str d.1, d.2⟩)

/-- Total number of documents across the pages. -/
def sumLen (pages : List (List (String × J))) : Nat :=
  (pages.map List.length).sum

/-- The (bulk, continuation) request pair issued per fully processed page. -/
def pairTrace (indexName : String) (pages : List (List (String × J))) :
    List Event :=
  (pages.map (fun p =>
    [Event.reqBulk (encodeBatch indexName p), Event.reqCont])).flatten

/-- Specification-side recursion computing what the loop does on the
scripted source from page position `j` on. -/
def runPages (bulkOK contOK : Nat → Bool) (indexName : String) :
    List (List (String × J)) → Nat → Nat → LoopExit × Nat × List Event
  | [], _, m => (.normal, m, [])
  | p :: rest, j, m =>
    if bulkOK j then
      if contOK j then
        let r := runPages bulkOK contOK indexName rest (j + 1) (m + p.length)
        (r.1, r.2.1,
          Event.reqBulk (encodeBatch indexName p) :: Event.reqCont :: r.2.2)
      else
        (.normal, m + p.length,
          [Event.reqBulk (encodeBatch indexName p), Event.reqCont])
    else (.bulkFail, m, [Event.reqBulk (encodeBatch indexName p)])

theorem respJson_pageRespAt (s : SrcSpec) (pos : Nat) :
    respJson (pageRespAt s pos)
      = .ok (pageBody (sidAt s pos) s.total ((s.pages.drop pos).headD [])) := rfl

theorem dictGetOpt_pageBody_sid (sid : Option String) (t : Int)
    (docs : List (String × J)) :
    dictGetOpt (pageBody sid t docs) "_scroll_id" = .ok (sid.map J.str) := by
  cases sid <;> rfl

theorem dictGetD_pageBody_hits (sid : Option String) (t : Int)
    (docs : List (String × J)) (d : J) :
    dictGetD (pageBody sid t docs) "hits" d
      = .ok (J.obj [("total", J.obj [("value", J.num t)]),
                    ("hits", J.arr (docs.map mkDoc))]) := by
  cases sid <;> rfl

theorem buildPayload_mkDoc (indexName : String) (page : List (String × J)) :
    buildPayload indexName (page.map mkDoc)
      = .ok (encodeBatch indexName page) := by
  induction page with
  | nil => rfl
  | cons hd tl ih =>
    simp only [List.map_cons, buildPayload]
    rw [show subscr (mkDoc hd) "_id" = Except.ok (J.str hd.1) from rfl,
      show subscr (mkDoc hd) "_source" = Except.ok hd.2 from rfl, ih]
    rfl

theorem dictGetD_hitsObj (t : Int) (x : List J) (d : J) :
    dictGetD (J.obj [("total", J.obj [("value", J.num t)]),
      ("hits", J.arr x)]) "hits" d = .ok (J.arr x) := rfl

theorem dictGetD_totalObj (t : Int) (x : List J) (d : J) :
    dictGetD (J.obj [("total", J.obj [("value", J.num t)]),
      ("hits", J.arr x)]) "total" d = .ok (J.obj [("value", J.num t)]) := rfl

theorem sidAt_spec (s : SrcSpec) (pos : Nat) :
    (∃ a, sidAt s pos = some a
        ∧ optTruthy ((sidAt s pos).map J.str) = true)
      ∨ (sidAt s pos = none ∧ s.pages.drop pos = [] ∧ s.lastId = false) := by
  unfold sidAt
  by_cases h0 : pos = 0
  · left
    refine ⟨"scroll0", by rw [if_pos h0], ?_⟩
    rw [if_pos h0]
    decide
  · by_cases h1 : ((s.pages.drop pos).isEmpty ∧ s.lastId = false)
    · right
      refine ⟨by rw [if_neg h0, if_pos h1], List.isEmpty_iff.mp h1.1, h1.2⟩
    · left
      refine ⟨"scroll", by rw [if_neg h0, if_neg h1], ?_⟩
      rw [if_neg h0, if_neg h1]
      decide

/-- Master refinement lemma: on the scripted source, the loop of lines
118–160, started at page position `j`, computes exactly `runPages` over the
remaining pages. -/
theorem migrateLoop_mkEnv (s : SrcSpec) (indexName : String)
    (hne : ∀ p ∈ s.pages, ¬ p = []) :
    ∀ fuel j m evs, s.pages.length - j + 1 ≤ fuel →
    migrateLoop (mkEnv s) indexName fuel (pageRespAt s j)
        ((sidAt s j).map J.str) m j evs
      = .ok ((runPages s.bulkOK s.contOK indexName (s.pages.drop j) j m).1,
             (runPages s.bulkOK s.contOK indexName (s.pages.drop j) j m).2.1,
             evs ++ (runPages s.bulkOK s.contOK indexName
               (s.pages.drop j) j m).2.2) := by
  intro fuel
  induction fuel with
  | zero => intro j m evs h; exact absurd h (by omega)
  | succ fuel ih =>
    intro j m evs hfuel
    cases hd : s.pages.drop j with
    | nil =>
      have hrun : runPages s.bulkOK s.contOK indexName
          ([] : List (List (String × J))) j m = (.normal, m, []) := rfl
      rw [hrun]
      rcases sidAt_spec s j with ⟨a, ha, htr⟩ | ⟨ha, _, _⟩
      · -- scroll id present but the page is empty: the break of lines 120–122
        simp only [migrateLoop]
        rw [if_neg (by rw [htr]; simp)]
        rw [respJson_pageRespAt]
        simp only []
        rw [dictGetD_pageBody_hits]
        simp only []
        rw [hd]
        simp only [List.headD_nil, List.map_nil]
        rw [dictGetD_hitsObj]
        simp only []
        rw [if_pos (by decide)]
        simp
      · -- no scroll id: the while condition of line 118 is already false
        simp only [migrateLoop]
        rw [ha]
        simp [optTruthy]
    | cons p rest =>
      have hpmem : p ∈ s.pages := by
        have : p ∈ s.pages.drop j := by rw [hd]; exact List.mem_cons_self p rest
        exact List.drop_subset _ _ this
      have hpne : ¬ p = [] := hne p hpmem
      have hjlt : j < s.pages.length := by
        by_contra hc
        rw [List.drop_eq_nil_of_le (by omega)] at hd
        cases hd
      have hrest : s.pages.drop (j + 1) = rest := by
        rw [← List.drop_drop, hd]
        rfl
      rcases sidAt_spec s j with ⟨a, ha, htr⟩ | ⟨_, hnil, _⟩
      swap
      · rw [hd] at hnil; cases hnil
      simp only [migrateLoop]
      rw [if_neg (by rw [htr]; simp)]
      rw [respJson_pageRespAt]
      simp only []
      rw [dictGetD_pageBody_hits]
      simp only []
      rw [hd]
      simp only [List.headD_cons]
      rw [dictGetD_hitsObj]
      simp only []
      rw [if_neg (by
        simp only [J.truthy, List.isEmpty_eq_true, List.map_eq_nil_iff]
        simpa using hpne)]
      rw [show toIter (J.arr (p.map mkDoc)) = Except.ok (p.map mkDoc) from rfl]
      simp only []
      rw [buildPayload_mkDoc]
      simp only []
      cases hb : s.bulkOK j with
      | false =>
        rw [if_neg (show ¬ ((mkEnv s).bulkResp j).status = 200 by
          simp [mkEnv, hb])]
        have hrun : runPages s.bulkOK s.contOK indexName (p :: rest) j m
            = (.bulkFail, m, [Event.reqBulk (encodeBatch indexName p)]) := by
          simp only [runPages]
          rw [if_neg (by rw [hb]; simp)]
        rw [hrun]
      | true =>
        rw [if_pos (show ((mkEnv s).bulkResp j).status = 200 by
          simp [mkEnv, hb])]
        simp only [List.length_map]
        cases hc : s.contOK j with
        | false =>
          have hcont : (mkEnv s).contResp j
              = { status := 500,
                  body := some (J.obj [("error", J.str "scroll expired")]) } := by
            simp [mkEnv, hc]
          rw [hcont]
          rw [if_pos (by simp)]
          have hrun : runPages s.bulkOK s.contOK indexName (p :: rest) j m
              = (.normal, m + p.length,
                 [Event.reqBulk (encodeBatch indexName p), Event.reqCont]) := by
            simp only [runPages]
            rw [if_pos (by rw [hb]), if_neg (by rw [hc]; simp)]
          rw [hrun]
          simp
        | true =>
          have hcont : (mkEnv s).contResp j = pageRespAt s (j + 1) := by
            simp [mkEnv, hc]
          rw [hcont]
          rw [if_neg (by simp [pageRespAt])]
          rw [respJson_pageRespAt]
          simp only []
          rw [dictGetOpt_pageBody_sid]
          simp only []
          have hrun : runPages s.bulkOK s.contOK indexName (p :: rest) j m
              = ((runPages s.bulkOK s.contOK indexName rest (j + 1)
                    (m + p.length)).1,
                 (runPages s.bulkOK s.contOK indexName rest (j + 1)
                    (m + p.length)).2.1,
                 Event.reqBulk (encodeBatch indexName p) :: Event.reqCont ::
                   (runPages s.bulkOK s.contOK indexName rest (j + 1)
                    (m + p.length)).2.2) := by
            simp only [runPages]
            rw [if_pos (by rw [hb]), if_pos (by rw [hc])]
          rw [hrun]
          rcases sidAt_spec s (j + 1) with ⟨b, hb1, htr1⟩ | ⟨hb1, hnil1, _⟩
          · -- next page exists (or an id is still served): loop again
            rw [if_neg (by rw [htr1]; simp)]
            rw [ih (j + 1) (m + p.length)
              (evs ++ [Event.reqBulk (encodeBatch indexName p)] ++ [Event.reqCont])
              (by omega)]
            rw [hrest]
            simp
          · -- continuation succeeded but carries no scroll id: break of line 160
            rw [hb1]
            simp only [Option.map_none', optTruthy]
            rw [if_pos trivial]
            rw [hrest] at hnil1
            subst hnil1
            simp [runPages]

/-- Top-level refinement: on the scripted source, `migrate_index` returns
normally with the outcome computed by `runPages`, followed (only on a
normal loop exit) by the final refresh of lines 162–172. -/
theorem migrate_index_mkEnv (s : SrcSpec) (indexName : String)
    (hne : ∀ p ∈ s.pages, ¬ p = []) (fuel : Nat)
    (hfuel : s.pages.length + 1 ≤ fuel) :
    migrate_index (mkEnv s) indexName fuel
      = .ok (.ended
          (match (runPages s.bulkOK s.contOK indexName s.pages 0 0).1 with
           | .normal => .finalized (decide (s.refreshStatus = 200))
           | .bulkFail => .bulkFailed
           | .fuelOut => .fuelOut)
          (runPages s.bulkOK s.contOK indexName s.pages 0 0).2.1
          (Event.reqOpen ::
            (runPages s.bulkOK s.contOK indexName s.pages 0 0).2.2
            ++ (if (runPages s.bulkOK s.contOK indexName s.pages 0 0).1
                  = LoopExit.normal
                then [Event.reqRefresh] else []))) := by
  have hopen : (mkEnv s).openResp = pageRespAt s 0 := rfl
  unfold migrate_index migrateBody
  rw [if_neg (show ¬ ¬ (mkEnv s).openResp.status = 200 from fun h => h rfl)]
  rw [hopen, respJson_pageRespAt]
  simp only []
  rw [dictGetOpt_pageBody_sid]
  simp only []
  rw [dictGetD_pageBody_hits]
  simp only []
  rw [dictGetD_totalObj]
  simp only []
  rw [show dictGetD (J.obj [("value", J.num s.total)]) "value" (J.num 0)
    = Except.ok (J.num s.total) from rfl]
  simp only []
  rw [migrateLoop_mkEnv s indexName hne fuel 0 0 [Event.reqOpen] (by omega)]
  rw [List.drop_zero]
  have hrefresh : (mkEnv s).refreshResp.status = s.refreshStatus := rfl
  rcases hrr : runPages s.bulkOK s.contOK indexName s.pages 0 0 with ⟨e, mm, tr⟩
  cases e <;> simp [hrefresh]

theorem runPages_allOK (indexName : String) :
    ∀ (pages : List (List (String × J))) (j m : Nat),
    runPages (fun _ => true) (fun _ => true) indexName pages j m
      = (.normal, m + sumLen pages, pairTrace indexName pages) := by
  intro pages
  induction pages with
  | nil => intro j m; simp [runPages, sumLen, pairTrace]
  | cons p rest ih =>
    intro j m
    simp only [runPages, if_pos rfl, ih, List.append_eq]
    simp only [Prod.mk.injEq, sumLen, pairTrace, List.map_cons,
      List.flatten_cons, List.sum_cons]
    simp [Nat.add_assoc]

theorem runPages_bulkFailFirst (indexName : String)
    (bulkOK contOK : Nat → Bool) :
    ∀ (front : List (List (String × J))) (pk : List (String × J))
      (rest : List (List (String × J))) (j m : Nat),
    (∀ i, i < front.length → bulkOK (j + i) = true) →
    (∀ i, i < front.length → contOK (j + i) = true) →
    bulkOK (j + front.length) = false →
    runPages bulkOK contOK indexName (front ++ pk :: rest) j m
      = (.bulkFail, m + sumLen front,
         pairTrace indexName front
           ++ [Event.reqBulk (encodeBatch indexName pk)]) := by
  intro front
  induction front with
  | nil =>
    intro pk rest j m _ _ hK
    simp only [List.length_nil, Nat.add_zero] at hK
    simp only [List.nil_append, runPages]
    rw [if_neg (by rw [hK]; simp)]
    simp [sumLen, pairTrace]
  | cons p front' ih =>
    intro pk rest j m hb hc hK
    simp only [List.cons_append, runPages, List.append_eq]
    rw [if_pos (by have := hb 0 (by simp); simpa using this),
      if_pos (by have := hc 0 (by simp); simpa using this)]
    rw [ih pk rest (j + 1) (m + p.length)
      (fun i hi => by
        have := hb (i + 1) (by simpa using Nat.succ_lt_succ hi)
        rwa [show j + (i + 1) = j + 1 + i by omega] at this)
      (fun i hi => by
        have := hc (i + 1) (by simpa using Nat.succ_lt_succ hi)
        rwa [show j + (i + 1) = j + 1 + i by omega] at this)
      (by rwa [show j + 1 + front'.length = j + (p :: front').length by
        simp only [List.length_cons]; omega] )]
    simp only [Prod.mk.injEq, sumLen, pairTrace, List.map_cons,
      List.flatten_cons, List.sum_cons]
    refine ⟨trivial, by omega, by simp⟩

theorem runPages_contFailFirst (indexName : String)
    (bulkOK contOK : Nat → Bool) :
    ∀ (front : List (List (String × J))) (pk : List (String × J))
      (rest : List (List (String × J))) (j m : Nat),
    (∀ i, i ≤ front.length → bulkOK (j + i) = true) →
    (∀ i, i < front.length → contOK (j + i) = true) →
    contOK (j + front.length) = false →
    runPages bulkOK contOK indexName (front ++ pk :: rest) j m
      = (.normal, m + sumLen front + pk.length,
         pairTrace indexName front
           ++ [Event.reqBulk (encodeBatch indexName pk), Event.reqCont]) := by
  intro front
  induction front with
  | nil =>
    intro pk rest j m hb _ hK
    simp only [List.length_nil, Nat.add_zero] at hK
    simp only [List.nil_append, runPages]
    rw [if_pos (by have := hb 0 (by simp); simpa using this),
      if_neg (by rw [hK]; simp)]
    simp [sumLen, pairTrace]
  | cons p front' ih =>
    intro pk rest j m hb hc hK
    simp only [List.cons_append, runPages, List.append_eq]
    rw [if_pos (by have := hb 0 (by simp); simpa using this),
      if_pos (by have := hc 0 (by simp); simpa using this)]
    rw [ih pk rest (j + 1) (m + p.length)
      (fun i hi => by
        have := hb (i + 1) (by simpa using Nat.succ_le_succ hi)
        rwa [show j + (i + 1) = j + 1 + i by omega] at this)
      (fun i hi => by
        have := hc (i + 1) (by simpa using Nat.succ_lt_succ hi)
        rwa [show j + (i + 1) = j + 1 + i by omega] at this)
      (by rwa [show j + 1 + front'.length = j + (p :: front').length by
        simp only [List.length_cons]; omega] )]
    simp only [Prod.mk.injEq, sumLen, pairTrace, List.map_cons,
      List.flatten_cons, List.sum_cons]
    refine ⟨trivial, by omega, by simp⟩

/-! ## Claims about the document phase -/

/-- C6: for a source serving its N documents in successive non-empty pages,
repeated continuations migrate exactly N documents and the task finalizes,
whether the final empty continuation still carries a scroll id
(`lastId = true`: termination by the empty page, lines 120–122) or omits it
(`lastId = false`: termination by the missing id, lines 158–160, treated as
exhaustion, not as an error); the reported total document count is
universally quantified and absent from the conclusion, so termination never
depends on it. -/
theorem migrate_index_full_extraction (indexName : String) (total : Int)
    (pages : List (List (String × J))) (lastId : Bool) (fuel : Nat)
    (hne : ∀ p ∈ pages, ¬ p = []) (hfuel : pages.length + 1 ≤ fuel) :
    migrate_index
        (mkEnv ⟨pages, total, fun _ => true, fun _ => true, lastId, 200⟩)
        indexName fuel
      = .ok (.ended (.finalized true) (sumLen pages)
          (Event.reqOpen :: pairTrace indexName pages
            ++ [Event.reqRefresh])) := by
  rw [migrate_index_mkEnv ⟨pages, total, fun _ => true, fun _ => true,
    lastId, 200⟩ indexName hne fuel hfuel]
  rw [show (SrcSpec.mk pages total (fun _ => true) (fun _ => true)
    lastId 200).bulkOK = (fun _ => true) from rfl]
  rw [show (SrcSpec.mk pages total (fun _ => true) (fun _ => true)
    lastId 200).contOK = (fun _ => true) from rfl]
  rw [runPages_allOK]
  simp

theorem migrate_index_full_extraction_witness :
    migrate_index
        (mkEnv ⟨[], 999, fun _ => true, fun _ => true, true, 200⟩) "idx" 1
      = .ok (.ended (.finalized true) 0 [Event.reqOpen, Event.reqRefresh])
    ∧ migrate_index
        (mkEnv ⟨[[("a", J.null), ("b", J.null)]], 999, fun _ => true,
          fun _ => true, true, 200⟩) "idx" 2
      = .ok (.ended (.finalized true) 2
          [Event.reqOpen,
           Event.reqBulk [⟨"idx", J.str "a", J.null⟩, ⟨"idx", J.str "b", J.null⟩],
           Event.reqCont, Event.reqRefresh])
    ∧ migrate_index
        (mkEnv ⟨[[("a", J.null), ("b", J.null)], [("c", J.null)]], 999,
          fun _ => true, fun _ => true, false, 200⟩) "idx" 3
      = .ok (.ended (.finalized true) 3
          [Event.reqOpen,
           Event.reqBulk [⟨"idx", J.str "a", J.null⟩, ⟨"idx", J.str "b", J.null⟩],
           Event.reqCont,
           Event.reqBulk [⟨"idx", J.str "c", J.null⟩],
           Event.reqCont, Event.reqRefresh]) := by
  refine ⟨?_, ?_, ?_⟩
  · have h := migrate_index_full_extraction "idx" 999 [] true 1
      (by simp) (by norm_num)
    simpa [sumLen, pairTrace] using h
  · have h := migrate_index_full_extraction "idx" 999
      [[("a", J.null), ("b", J.null)]] true 2 (by simp) (by norm_num)
    simpa [sumLen, pairTrace, encodeBatch] using h
  · have h := migrate_index_full_extraction "idx" 999
      [[("a", J.null), ("b", J.null)], [("c", J.null)]] false 3
      (by simp) (by norm_num)
    simpa [sumLen, pairTrace, encodeBatch] using h

/-- A source whose single continuation request fails (status 500) after a
first page of two documents was served and bulk-loaded. -/
def contFailSpec : SrcSpec :=
  ⟨[[("d1", J.num 1), ("d2", J.num 2)]], 2,
    fun _ => true, fun _ => false, true, 200⟩

/-- C2 counterexample: when a cursor continuation fails, the code (line 155)
merely breaks out of the loop, then still issues the final refresh and emits
the completion log of line 172 — the very same `.finalized` terminal
observation as a fully successful run — instead of ending in the distinct
failure state (the bare `return` of line 149) that a bulk-load failure
produces.  So an extractor (continuation) failure does not end the task in
a PartialFailure-like terminal failure. -/
theorem contFail_reaches_refresh_counterexample :
    migrate_index (mkEnv contFailSpec) "orders" 5
      = .ok (.ended (.finalized true) 2
          [Event.reqOpen,
           Event.reqBulk [⟨"orders", J.str "d1", J.num 1⟩,
                          ⟨"orders", J.str "d2", J.num 2⟩],
           Event.reqCont, Event.reqRefresh]) := by
  rfl

/-- C2 amended: if the k-th bulk load fails (k = `front.length` batches
already loaded), the task returns immediately in the distinct `.bulkFailed`
state carrying exactly the sum of the first k−1 batches' sizes, with no
further extractor request and no refresh; if instead the k-th continuation
fails, no further batch is requested and the count of all loaded batches is
preserved, but the task proceeds to the finalizing refresh and reports
completion rather than ending in a failure state. -/
theorem migrate_index_failure_accounting (indexName : String) (total : Int)
    (front : List (List (String × J))) (pk : List (String × J))
    (rest : List (List (String × J))) (lastId : Bool) (fuel : Nat)
    (hne : ∀ p ∈ front ++ pk :: rest, ¬ p = [])
    (hfuel : (front ++ pk :: rest).length + 1 ≤ fuel) :
    migrate_index (mkEnv ⟨front ++ pk :: rest, total,
        fun n => decide (¬ n = front.length), fun _ => true, lastId, 200⟩)
        indexName fuel
      = .ok (.ended .bulkFailed (sumLen front)
          (Event.reqOpen :: (pairTrace indexName front
            ++ [Event.reqBulk (encodeBatch indexName pk)])))
    ∧ migrate_index (mkEnv ⟨front ++ pk :: rest, total,
        fun _ => true, fun n => decide (¬ n = front.length), lastId, 200⟩)
        indexName fuel
      = .ok (.ended (.finalized true) (sumLen front + pk.length)
          (Event.reqOpen :: (pairTrace indexName front
            ++ [Event.reqBulk (encodeBatch indexName pk), Event.reqCont,
                Event.reqRefresh]))) := by
  constructor
  · rw [migrate_index_mkEnv ⟨front ++ pk :: rest, total,
      fun n => decide (¬ n = front.length), fun _ => true, lastId, 200⟩
      indexName hne fuel hfuel]
    rw [show (SrcSpec.mk (front ++ pk :: rest) total
      (fun n => decide (¬ n = front.length)) (fun _ => true) lastId 200).bulkOK
      = (fun n => decide (¬ n = front.length)) from rfl]
    rw [show (SrcSpec.mk (front ++ pk :: rest) total
      (fun n => decide (¬ n = front.length)) (fun _ => true) lastId 200).contOK
      = (fun _ => true) from rfl]
    rw [runPages_bulkFailFirst indexName _ _ front pk rest 0 0
      (fun i hi => by simp; omega) (fun i _ => rfl)
      (by simp)]
    simp
  · rw [migrate_index_mkEnv ⟨front ++ pk :: rest, total,
      fun _ => true, fun n => decide (¬ n = front.length), lastId, 200⟩
      indexName hne fuel hfuel]
    rw [show (SrcSpec.mk (front ++ pk :: rest) total (fun _ => true)
      (fun n => decide (¬ n = front.length)) lastId 200).bulkOK
      = (fun _ => true) from rfl]
    rw [show (SrcSpec.mk (front ++ pk :: rest) total (fun _ => true)
      (fun n => decide (¬ n = front.length)) lastId 200).contOK
      = (fun n => decide (¬ n = front.length)) from rfl]
    rw [runPages_contFailFirst indexName _ _ front pk rest 0 0
      (fun i _ => rfl) (fun i hi => by simp; omega)
      (by simp)]
    simp

theorem migrate_index_failure_accounting_witness :
    migrate_index (mkEnv ⟨[[("a", J.null)], [("b", J.null)], [("c", J.null)]],
        99, fun n => decide (¬ n = 1), fun _ => true, true, 200⟩) "idx" 9
      = .ok (.ended .bulkFailed 1
          [Event.reqOpen, Event.reqBulk [⟨"idx", J.str "a", J.null⟩],
           Event.reqCont, Event.reqBulk [⟨"idx", J.str "b", J.null⟩]])
    ∧ migrate_index (mkEnv ⟨[[("a", J.null)], [("b", J.null)], [("c", J.null)]],
        99, fun _ => true, fun n => decide (¬ n = 1), true, 200⟩) "idx" 9
      = .ok (.ended (.finalized true) 2
          [Event.reqOpen, Event.reqBulk [⟨"idx", J.str "a", J.null⟩],
           Event.reqCont, Event.reqBulk [⟨"idx", J.str "b", J.null⟩],
           Event.reqCont, Event.reqRefresh]) := by
  have h := migrate_index_failure_accounting "idx" 99 [[("a", J.null)]]
    [("b", J.null)] [[("c", J.null)]] true 9 (by simp) (by norm_num)
  constructor
  · have h1 := h.1
    simpa [sumLen, pairTrace, encodeBatch] using h1
  · have h2 := h.2
    simpa [sumLen, pairTrace, encodeBatch] using h2

/-- C7: the bulk load sends each batch as one request whose payload keeps
every document's original `_id` in order; a 200 top-level response adds
exactly `len(batch)` to the migrated count, and a non-200 response fails
the whole batch: the task ends at once with none of the batch's documents
counted — all-or-nothing, with no per-item inspection (the code only ever
looks at `status_code`). -/
theorem bulk_load_batch_semantics (indexName : String) (total : Int)
    (page : List (String × J)) (fuel : Nat)
    (hne : ¬ page = []) (hfuel : 2 ≤ fuel) :
    buildPayload indexName (page.map mkDoc) = .ok (encodeBatch indexName page)
    ∧ (encodeBatch indexName page).map BulkLine.docId
        = page.map (fun d => J.str d.1)
    ∧ (encodeBatch indexName page).length = page.length
    ∧ migrate_index
        (mkEnv ⟨[page], total, fun _ => true, fun _ => true, true, 200⟩)
        indexName fuel
      = .ok (.ended (.finalized true) page.length
          [Event.reqOpen, Event.reqBulk (encodeBatch indexName page),
           Event.reqCont, Event.reqRefresh])
    ∧ migrate_index
        (mkEnv ⟨[page], total, fun _ => false, fun _ => true, true, 200⟩)
        indexName fuel
      = .ok (.ended .bulkFailed 0
          [Event.reqOpen, Event.reqBulk (encodeBatch indexName page)]) := by
  refine ⟨buildPayload_mkDoc indexName page, by simp [encodeBatch], by
    simp [encodeBatch], ?_, ?_⟩
  · rw [migrate_index_mkEnv ⟨[page], total, fun _ => true, fun _ => true,
      true, 200⟩ indexName (by simpa using hne) fuel (by simpa using hfuel)]
    rw [show (SrcSpec.mk [page] total (fun _ => true) (fun _ => true)
      true 200).bulkOK = (fun _ => true) from rfl]
    rw [show (SrcSpec.mk [page] total (fun _ => true) (fun _ => true)
      true 200).contOK = (fun _ => true) from rfl]
    rw [runPages_allOK]
    simp [sumLen, pairTrace]
  · rw [migrate_index_mkEnv ⟨[page], total, fun _ => false, fun _ => true,
      true, 200⟩ indexName (by simpa using hne) fuel (by simpa using hfuel)]
    simp [runPages]

theorem bulk_load_batch_semantics_witness :
    buildPayload "idx" ([("a", J.num 5)].map mkDoc)
      = .ok (encodeBatch "idx" [("a", J.num 5)])
    ∧ (encodeBatch "idx" [("a", J.num 5)]).map BulkLine.docId
        = [J.str "a"]
    ∧ (encodeBatch "idx" [("a", J.num 5)]).length = 1
    ∧ migrate_index
        (mkEnv ⟨[[("a", J.num 5)]], 1, fun _ => true, fun _ => true,
          true, 200⟩) "idx" 2
      = .ok (.ended (.finalized true) 1
          [Event.reqOpen, Event.reqBulk (encodeBatch "idx" [("a", J.num 5)]),
           Event.reqCont, Event.reqRefresh])
    ∧ migrate_index
        (mkEnv ⟨[[("a", J.num 5)]], 1, fun _ => false, fun _ => true,
          true, 200⟩) "idx" 2
      = .ok (.ended .bulkFailed 0
          [Event.reqOpen,
           Event.reqBulk (encodeBatch "idx" [("a", J.num 5)])]) := by
  have h := bulk_load_batch_semantics "idx" 1 [("a", J.num 5)] 2
    (by simp) (by norm_num)
  exact ⟨h.1, by simpa using h.2.1, h.2.2.1, by simpa using h.2.2.2.1,
    h.2.2.2.2⟩

/-- C8: a failed finalizing refresh is non-fatal — for every refresh status
the task still reaches the `.finalized` end (the completion log of line 172
is emitted), with the same migrated count and the same request trace; only
the recorded refresh outcome differs, which the code merely logs as a
warning (lines 169–170). -/
theorem refresh_failure_nonfatal (indexName : String) (total : Int)
    (pages : List (List (String × J))) (lastId : Bool) (rs : Nat) (fuel : Nat)
    (hne : ∀ p ∈ pages, ¬ p = []) (hfuel : pages.length + 1 ≤ fuel) :
    migrate_index
        (mkEnv ⟨pages, total, fun _ => true, fun _ => true, lastId, rs⟩)
        indexName fuel
      = .ok (.ended (.finalized (decide (rs = 200))) (sumLen pages)
          (Event.reqOpen :: pairTrace indexName pages
            ++ [Event.reqRefresh])) := by
  rw [migrate_index_mkEnv ⟨pages, total, fun _ => true, fun _ => true,
    lastId, rs⟩ indexName hne fuel hfuel]
  rw [show (SrcSpec.mk pages total (fun _ => true) (fun _ => true)
    lastId rs).bulkOK = (fun _ => true) from rfl]
  rw [show (SrcSpec.mk pages total (fun _ => true) (fun _ => true)
    lastId rs).contOK = (fun _ => true) from rfl]
  rw [runPages_allOK]
  simp

theorem refresh_failure_nonfatal_witness :
    migrate_index
        (mkEnv ⟨[[("a", J.null)]], 1, fun _ => true, fun _ => true,
          true, 503⟩) "idx" 2
      = .ok (.ended (.finalized false) 1
          [Event.reqOpen, Event.reqBulk [⟨"idx", J.str "a", J.null⟩],
           Event.reqCont, Event.reqRefresh])
    ∧ migrate_index
        (mkEnv ⟨[[("a", J.null)]], 1, fun _ => true, fun _ => true,
          true, 200⟩) "idx" 2
      = .ok (.ended (.finalized true) 1
          [Event.reqOpen, Event.reqBulk [⟨"idx", J.str "a", J.null⟩],
           Event.reqCont, Event.reqRefresh]) := by
  constructor
  · have h := refresh_failure_nonfatal "idx" 1 [[("a", J.null)]] true 503 2
      (by simp) (by norm_num)
    simpa [sumLen, pairTrace, encodeBatch] using h
  · have h := refresh_failure_nonfatal "idx" 1 [[("a", J.null)]] true 200 2
      (by simp) (by norm_num)
    simpa [sumLen, pairTrace, encodeBatch] using h

/-- C10: `migrate_index` never propagates an exception to the thread pool:
for every environment (arbitrary statuses, unparseable bodies, malformed
hits, documents without `_id`) it returns normally — internal exceptions
surface only as the logged `.caught` result of the `except` handler of
lines 174–175, so the orchestrator's per-future exception branch (line 284)
is unreachable. -/
theorem migrate_index_no_exception (env : Env) (indexName : String)
    (fuel : Nat) :
    ∃ r, migrate_index env indexName fuel = .ok r := by
  unfold migrate_index
  cases h : migrateBody env indexName fuel with
  | ok v =>
    obtain ⟨e, m, evs⟩ := v
    exact ⟨.ended e m evs, rfl⟩
  | error err => exact ⟨.caught err, rfl⟩

/-! ## Metadata fetching (`get_index_metadata`, lines 34–62) -/

/-- Result of one `subprocess.run(curl …)` call: the exit code and the
parse outcome of stdout (`none` models output on which `json.loads`
raises). -/
structure CurlResult where
  returncode : Int
  stdout : Option J

/-- `json.loads(result.stdout)` (lines 44–45). -/
def parseOut (r : CurlResult) : Except PyErr J :=
  match r.stdout with
  | some j => .ok j
  | none => .error .jsonDecodeError

/-- `get_index_metadata` (lines 34–62): on a nonzero exit code of either
curl call the function prints and returns `None` (lines 60–62); otherwise
both bodies are parsed (lines 44–45, raising on malformed output) and the
settings and mappings are extracted through the defaulting `get` chains of
lines 47–48. -/
def get_index_metadata (indexName : String) (sres mres : CurlResult) :
    Except PyErr (Option Metadata) :=
  if sres.returncode = 0 ∧ mres.returncode = 0 then
    match parseOut sres with
    | .error e => .error e
    | .ok settings =>
      match parseOut mres with
      | .error e => .error e
      | .ok mappings =>
        match dictGetD settings indexName (J.obj []) with
        | .error e => .error e
        | .ok s1 =>
          match dictGetD s1 "settings" (J.obj []) with
          | .error e => .error e
          | .ok s2 =>
            match dictGetD s2 "index" (J.obj []) with
            | .error e => .error e
            | .ok indexSettings =>
              match dictGetD mappings indexName (J.obj []) with
              | .error e => .error e
              | .ok m1 =>
                match dictGetD m1 "mappings" (J.obj []) with
                | .error e => .error e
                | .ok indexMappings =>
                  .ok (some ⟨indexName, indexSettings, indexMappings⟩)
  else .ok none

/-! ## Index provisioning (`create_index_in_os`, lines 66–90) -/

/-- Modelled target cluster (an external collaborator, spec §6): the set of
existing indices and whether create writes succeed.  `HEAD {index}` answers
200 exactly when the index exists; a successful `PUT {index}` adds it. -/
structure Target where
  existing : List String
  putOK : Bool

def headStatus (t : Target) (i : String) : Nat :=
  if i ∈ t.existing then 200 else 404

def putResult (t : Target) (i : String) : Nat × Target :=
  if t.putOK then (200, { t with existing := i :: t.existing }) else (400, t)

/-- Print-branch outcome of `create_index_in_os`. -/
inductive ProvisionOutcome where
  | created        -- line 88
  | alreadyExists  -- line 77: skip, no write
  | createFailed   -- line 90: logged, the function still returns normally
  deriving DecidableEq

/-- Requests `create_index_in_os` issues. -/
inductive ProvReq where
  | head (i : String)
  | put (i : String) (body : CleanedMetadata)

/-- `create_index_in_os` (lines 66–90): clean the metadata first (line 70,
may raise), probe existence with a HEAD request (line 74); on 200, skip
with no write at all (lines 76–78); otherwise PUT the cleaned metadata
(line 85), where 200/201 means created and anything else is printed as a
failure — in every case the function returns normally. -/
def create_index_in_os (t : Target) (indexName : String) (m : Metadata) :
    Except PyErr (ProvisionOutcome × Target × List ProvReq) :=
  match clean_index_metadata m with
  | .error e => .error e
  | .ok cleaned =>
    if headStatus t indexName = 200 then
      .ok (.alreadyExists, t, [.head indexName])
    else
      let pr := putResult t indexName
      if pr.1 = 200 ∨ pr.1 = 201 then
        .ok (.created, pr.2, [.head indexName, .put indexName cleaned])
      else
        .ok (.createFailed, pr.2, [.head indexName, .put indexName cleaned])

/-! ## The orchestrator (`main`, lines 251–304) -/

/-- The whole run as one task trace. -/
inductive RunEvent where
  | fetchMeta (i : String)                        -- the curl reads, lines 37–41
  | skipIndex (i : String)                        -- line 274
  | provHead (i : String)                         -- line 74
  | provPut (i : String)                          -- line 85
  | provisionDone (i : String) (o : ProvisionOutcome)
  | dispatch (i : String)                         -- executor.submit, line 279
  | docReq (i : String) (e : Event)               -- a document-phase request

def provEv (i : String) : ProvReq → RunEvent
  | .head _ => .provHead i
  | .put _ _ => .provPut i

/-- The environment of one run. -/
structure RunEnv where
  sourceIndices : List String        -- from get_source_indices_names, line 264
  settingsRes : String → CurlResult
  mappingsRes : String → CurlResult
  target : Target
  indicesToMigrate : List String     -- from the config, line 259
  docEnv : String → Env

/-- The sequential, single-threaded metadata/sanitize/provision pass of
lines 269–274.  An exception escaping `get_index_metadata` (malformed JSON)
or `create_index_in_os` propagates to the handler at line 300, ending the
run: the returned target is `none` and the trace stops there. -/
def provisionPass (env : RunEnv) :
    List String → Target → List RunEvent × Option Target
  | [], t => ([], some t)
  | i :: rest, t =>
    match get_index_metadata i (env.settingsRes i) (env.mappingsRes i) with
    | .error _ => ([.fetchMeta i], none)
    | .ok none =>
        let r := provisionPass env rest t
        (.fetchMeta i :: .skipIndex i :: r.1, r.2)
    | .ok (some md) =>
        match create_index_in_os t i md with
        | .error _ => ([.fetchMeta i], none)
        | .ok (outcome, t', reqs) =>
            let r := provisionPass env rest t'
            (.fetchMeta i :: (reqs.map (provEv i)
              ++ .provisionDone i outcome :: r.1), r.2)

/-- The requests of one submitted document task (the exception-caught case
contributes none, matching the fact that a raised task issues no request
after the raise). -/
def docEvents (env : RunEnv) (fuel : Nat) (i : String) : List RunEvent :=
  match migrate_index (env.docEnv i) i fuel with
  | .ok (.ended _ _ evs) => evs.map (RunEvent.docReq i)
  | _ => []

/-- `main` (lines 251–304): the provisioning pass over all source indices
runs to completion first; only then (line 278 follows the loop of lines
269–274) is the worker pool started over the configured
`indices_to_migrate`, one task per index.  The pool's interleaving is
serialized per task here; the phase ordering below is unaffected since the
pool starts only after the pass ends.  If the pass raised, the handler of
line 300 ends the run and no document phase happens. -/
def mainRun (env : RunEnv) (fuel : Nat) : List RunEvent :=
  match provisionPass env env.sourceIndices env.target with
  | (evs, none) => evs
  | (evs, some _) =>
      evs ++ (env.indicesToMigrate.map
        (fun i => RunEvent.dispatch i :: docEvents env fuel i)).flatten

def isDocEv : RunEvent → Bool
  | .dispatch _ => true
  | .docReq _ _ => true
  | _ => false

def isProvisionEv : RunEvent → Bool
  | .fetchMeta _ => true
  | .skipIndex _ => true
  | .provHead _ => true
  | .provPut _ => true
  | .provisionDone _ _ => true
  | _ => false

theorem provisionPass_no_doc (env : RunEnv) :
    ∀ (l : List String) (t : Target) (e : RunEvent),
    e ∈ (provisionPass env l t).1 → isDocEv e = false := by
  intro l
  induction l with
  | nil => intro t e he; simp [provisionPass] at he
  | cons i rest ih =>
    intro t e he
    simp only [provisionPass] at he
    cases hg : get_index_metadata i (env.settingsRes i) (env.mappingsRes i) with
    | error err =>
      rw [hg] at he
      simp only [List.mem_singleton] at he
      subst he; rfl
    | ok o =>
      rw [hg] at he
      cases o with
      | none =>
        simp only [List.mem_cons] at he
        rcases he with h | h | h
        · subst h; rfl
        · subst h; rfl
        · exact ih t e h
      | some md =>
        simp only [] at he
        cases hc : create_index_in_os t i md with
        | error err =>
          rw [hc] at he
          simp only [List.mem_singleton] at he
          subst he; rfl
        | ok v =>
          obtain ⟨outcome, t', reqs⟩ := v
          rw [hc] at he
          simp only [List.mem_cons, List.mem_append, List.mem_map] at he
          rcases he with h | (⟨req, _, h⟩ | (h | h))
          · subst h; rfl
          · cases req <;> (subst h; rfl)
          · subst h; rfl
          · exact ih t' e h

theorem docPhase_no_provision (env : RunEnv) (fuel : Nat) (e : RunEvent)
    (he : e ∈ (env.indicesToMigrate.map
      (fun i => RunEvent.dispatch i :: docEvents env fuel i)).flatten) :
    isProvisionEv e = false := by
  rcases List.mem_flatten.mp he with ⟨s, hs, hes⟩
  rcases List.mem_map.mp hs with ⟨i, _, hsi⟩
  subst hsi
  rcases List.mem_cons.mp hes with h | h
  · subst h; rfl
  · unfold docEvents at h
    cases hmi : migrate_index (env.docEnv i) i fuel with
    | error err => rw [hmi] at h; simp at h
    | ok r =>
      cases r with
      | ended te mm evs =>
        rw [hmi] at h
        rcases List.mem_map.mp h with ⟨ev, _, hev⟩
        subst hev; rfl
      | caught err => rw [hmi] at h; simp at h

theorem append_prov_before_doc (a b : List RunEvent) (p q : Nat)
    (e₁ e₂ : RunEvent)
    (ha : ∀ e ∈ a, isDocEv e = false)
    (hb : ∀ e ∈ b, isProvisionEv e = false)
    (hp : (a ++ b)[p]? = some e₁) (h1 : isProvisionEv e₁ = true)
    (hq : (a ++ b)[q]? = some e₂) (h2 : isDocEv e₂ = true) :
    p < q := by
  have hpa : p < a.length := by
    by_contra hc
    rw [List.getElem?_append, if_neg (by omega)] at hp
    have := hb e₁ (List.getElem?_mem hp)
    rw [this] at h1
    cases h1
  have hqa : a.length ≤ q := by
    by_contra hc
    rw [List.getElem?_append, if_pos (by omega)] at hq
    have := ha e₂ (List.getElem?_mem hq)
    rw [this] at h2
    cases h2
  omega

/-- C9: in every run, the metadata/sanitize/provision pass over the whole
source index list finishes before any document-phase activity — at every
pair of positions of the run trace, a provisioning event strictly precedes
every dispatch and every document-phase request. -/
theorem provision_before_documents (env : RunEnv) (fuel : Nat)
    (p q : Nat) (e₁ e₂ : RunEvent)
    (hp : (mainRun env fuel)[p]? = some e₁) (h1 : isProvisionEv e₁ = true)
    (hq : (mainRun env fuel)[q]? = some e₂) (h2 : isDocEv e₂ = true) :
    p < q := by
  unfold mainRun at hp hq
  rcases hpp : provisionPass env env.sourceIndices env.target with ⟨evs, ot⟩
  rw [hpp] at hp hq
  have hevs : ∀ e ∈ evs, isDocEv e = false := by
    intro e he
    exact provisionPass_no_doc env env.sourceIndices env.target e
      (by rw [hpp]; exact he)
  cases ot with
  | none =>
    simp only [] at hp hq
    refine append_prov_before_doc evs [] p q e₁ e₂ hevs (by simp) ?_ h1 ?_ h2
    · rw [List.append_nil]; exact hp
    · rw [List.append_nil]; exact hq
  | some t' =>
    simp only [] at hp hq
    exact append_prov_before_doc evs _ p q e₁ e₂ hevs
      (fun e he => docPhase_no_provision env fuel e he) hp h1 hq h2

/-- A minimal healthy one-index run used as a concrete witness. -/
def envC9 : RunEnv :=
  { sourceIndices := ["a"]
    settingsRes := fun _ => ⟨0, some (J.obj [])⟩
    mappingsRes := fun _ => ⟨0, some (J.obj [])⟩
    target := ⟨[], true⟩
    indicesToMigrate := ["a"]
    docEnv := fun _ => mkEnv ⟨[], 0, fun _ => true, fun _ => true, true, 200⟩ }

theorem provision_before_documents_witness :
    (mainRun envC9 1)[2]? = some (RunEvent.provPut "a")
    ∧ (mainRun envC9 1)[5]? = some (RunEvent.docReq "a" Event.reqOpen)
    ∧ 2 < 5 := by
  refine ⟨rfl, rfl, ?_⟩
  exact provision_before_documents envC9 1 2 5 (RunEvent.provPut "a")
    (RunEvent.docReq "a" Event.reqOpen) rfl rfl rfl rfl

/-- C4: provisioning is idempotent — starting from a target without the
index, the first call cleans the metadata, sees the 404 probe and issues
exactly one create write, ending `created`; the second call sees the 200
probe and performs no write at all, ending `alreadyExists`; and on any
target that already has the index, no write request is performed. -/
theorem create_index_idempotent (t : Target) (indexName : String)
    (kvs : List (String × J)) (mp : J) (hput : t.putOK = true)
    (habs : ¬ indexName ∈ t.existing) :
    ∃ t' c,
      create_index_in_os t indexName ⟨indexName, J.obj kvs, mp⟩
        = .ok (.created, t', [.head indexName, .put indexName c])
      ∧ create_index_in_os t' indexName ⟨indexName, J.obj kvs, mp⟩
        = .ok (.alreadyExists, t', [.head indexName])
      ∧ (∀ u : Target, indexName ∈ u.existing →
          create_index_in_os u indexName ⟨indexName, J.obj kvs, mp⟩
            = .ok (.alreadyExists, u, [.head indexName])) := by
  refine ⟨{ t with existing := indexName :: t.existing },
    ⟨cleanSettings kvs, mp⟩, ?_, ?_, ?_⟩
  · simp only [create_index_in_os, clean_index_metadata]
    rw [if_neg (by simp [headStatus, habs])]
    simp only [putResult, hput, if_pos]
    rw [if_pos (by simp)]
  · simp only [create_index_in_os, clean_index_metadata]
    rw [if_pos (by simp [headStatus])]
  · intro u hu
    simp only [create_index_in_os, clean_index_metadata]
    rw [if_pos (by simp [headStatus, hu])]

theorem create_index_idempotent_witness :
    ∃ t' c,
      create_index_in_os ⟨[], true⟩ "orders" ⟨"orders", J.obj [], J.obj []⟩
        = .ok (.created, t', [.head "orders", .put "orders" c])
      ∧ create_index_in_os t' "orders" ⟨"orders", J.obj [], J.obj []⟩
        = .ok (.alreadyExists, t', [.head "orders"]) := by
  obtain ⟨t', c, h1, h2, _⟩ := create_index_idempotent ⟨[], true⟩ "orders"
    [] (J.obj []) rfl (by simp)
  exact ⟨t', c, h1, h2⟩

theorem provisionPass_append (env : RunEnv) :
    ∀ (l₁ : List String) (l₂ : List String) (t t₁ : Target)
      (evs : List RunEvent),
    provisionPass env l₁ t = (evs, some t₁) →
    provisionPass env (l₁ ++ l₂) t
      = (evs ++ (provisionPass env l₂ t₁).1, (provisionPass env l₂ t₁).2) := by
  intro l₁
  induction l₁ with
  | nil =>
    intro l₂ t t₁ evs h
    simp only [provisionPass] at h
    obtain ⟨h1, h2⟩ := Prod.mk.injEq .. ▸ h
    injection h  -- split the pair equality
    case _ hevs hot =>
      injection hot with ht
      subst hevs
      subst ht
      simp [provisionPass]
  | cons i rest ih =>
    intro l₂ t t₁ evs h
    simp only [provisionPass] at h ⊢
    cases hg : get_index_metadata i (env.settingsRes i) (env.mappingsRes i) with
    | error err =>
      rw [hg] at h
      simp only [] at h
      injection h with h1 h2
      cases h2
    | ok o =>
      rw [hg] at h
      cases o with
      | none =>
        simp only [List.append_eq] at h ⊢
        rcases hr : provisionPass env rest t with ⟨revs, rot⟩
        rw [hr] at h
        simp only [] at h
        injection h with h1 h2
        subst h2
        rw [ih l₂ t t₁ revs hr]
        rw [← h1]
        simp
      | some md =>
        simp only [List.append_eq] at h ⊢
        cases hc : create_index_in_os t i md with
        | error err =>
          rw [hc] at h
          simp only [] at h
          injection h with h1 h2
          cases h2
        | ok v =>
          obtain ⟨outcome, t', reqs⟩ := v
          rw [hc] at h
          simp only [] at h
          rcases hr : provisionPass env rest t' with ⟨revs, rot⟩
          rw [hr] at h
          simp only [] at h
          injection h with h1 h2
          subst h2
          simp only []
          rw [ih l₂ t' t₁ revs hr]
          rw [← h1]
          simp

/-- C3 amended: an error response (nonzero curl exit code) from either
retrieval makes `get_index_metadata` return `None`, so the index is skipped
by the provisioning pass and the pass continues with the remaining indices
from the same target state (not fatal) — but the index is NOT excluded
from the document phase: the fan-out of line 279 iterates the configured
`indices_to_migrate` independently of metadata outcomes, so a
metadata-failed index that is configured is still dispatched for document
migration.  And a response that the call itself reported as successful
(exit code 0) whose body fails JSON parsing raises an exception that only
the top-level handler of line 300 catches, so the remaining metadata pass
and the entire document phase are abandoned: the run trace ends at the
failing fetch and contains no document-phase event at all. -/
theorem metadata_failure_handling (env : RunEnv) (fuel : Nat)
    (pre : List String) (i : String) (post : List String)
    (hsrc : env.sourceIndices = pre ++ i :: post)
    (evs₀ : List RunEvent) (t₀ : Target)
    (hpre : provisionPass env pre env.target = (evs₀, some t₀)) :
    ((¬ ((env.settingsRes i).returncode = 0
          ∧ (env.mappingsRes i).returncode = 0)) →
      provisionPass env env.sourceIndices env.target
        = (evs₀ ++ RunEvent.fetchMeta i :: RunEvent.skipIndex i ::
            (provisionPass env post t₀).1, (provisionPass env post t₀).2)
      ∧ (∀ evs₁ t₁, provisionPass env post t₀ = (evs₁, some t₁) →
          ∀ k ∈ env.indicesToMigrate,
            RunEvent.dispatch k ∈ mainRun env fuel))
    ∧ (((env.settingsRes i).returncode = 0
          ∧ (env.settingsRes i).stdout = none
          ∧ (env.mappingsRes i).returncode = 0) →
        mainRun env fuel = evs₀ ++ [RunEvent.fetchMeta i]
        ∧ ∀ e ∈ mainRun env fuel, isDocEv e = false) := by
  constructor
  · intro hrc
    have hg : get_index_metadata i (env.settingsRes i) (env.mappingsRes i)
        = .ok none := by
      unfold get_index_metadata
      rw [if_neg hrc]
    have hfull : provisionPass env env.sourceIndices env.target
        = (evs₀ ++ RunEvent.fetchMeta i :: RunEvent.skipIndex i ::
            (provisionPass env post t₀).1, (provisionPass env post t₀).2) := by
      rw [hsrc, provisionPass_append env pre (i :: post) env.target t₀ evs₀ hpre]
      simp only [provisionPass, hg]
    refine ⟨hfull, ?_⟩
    intro evs₁ t₁ hpost k hk
    unfold mainRun
    rw [hfull, hpost]
    simp only []
    refine List.mem_append.mpr (Or.inr ?_)
    exact List.mem_flatten.mpr ⟨RunEvent.dispatch k :: docEvents env fuel k,
      List.mem_map.mpr ⟨k, hk, rfl⟩, List.mem_cons_self _ _⟩
  · intro ⟨hrc1, hmal, hrc2⟩
    have hg : get_index_metadata i (env.settingsRes i) (env.mappingsRes i)
        = .error .jsonDecodeError := by
      unfold get_index_metadata
      rw [if_pos ⟨hrc1, hrc2⟩]
      unfold parseOut
      rw [hmal]
    have hfull : provisionPass env env.sourceIndices env.target
        = (evs₀ ++ [RunEvent.fetchMeta i], none) := by
      rw [hsrc, provisionPass_append env pre (i :: post) env.target t₀ evs₀ hpre]
      simp only [provisionPass, hg]
    have hmain : mainRun env fuel = evs₀ ++ [RunEvent.fetchMeta i] := by
      unfold mainRun
      rw [hfull]
    refine ⟨hmain, ?_⟩
    intro e he
    rw [hmain] at he
    rcases List.mem_append.mp he with h | h
    · exact provisionPass_no_doc env pre env.target e (by rw [hpre]; exact h)
    · rcases List.mem_singleton.mp h with rfl
      rfl

/-- A run whose first index returns well-formed exit codes but an
unparseable settings body, while a second healthy index is configured for
migration. -/
def envC3 : RunEnv :=
  { sourceIndices := ["a", "b"]
    settingsRes := fun i => if i = "a" then ⟨0, none⟩ else ⟨0, some (J.obj [])⟩
    mappingsRes := fun _ => ⟨0, some (J.obj [])⟩
    target := ⟨[], true⟩
    indicesToMigrate := ["b"]
    docEnv := fun _ => mkEnv ⟨[], 0, fun _ => true, fun _ => true, true, 200⟩ }

/-- A run whose only index's settings fetch fails with a nonzero curl exit
code, while that same index is configured for document migration. -/
def envC3b : RunEnv :=
  { sourceIndices := ["a"]
    settingsRes := fun _ => ⟨1, some (J.obj [])⟩
    mappingsRes := fun _ => ⟨0, some (J.obj [])⟩
    target := ⟨[], true⟩
    indicesToMigrate := ["a"]
    docEnv := fun _ => mkEnv ⟨[], 0, fun _ => true, fun _ => true, true, 200⟩ }

/-- C3 counterexample, refuting both halves of the claim.  First: with
index `a`'s settings body malformed (curl exit code 0, `json.loads`
raises), the whole run ends inside the metadata pass — the healthy index
`b` is never fetched, provisioned or migrated even though it is configured,
refuting "the failure is not fatal to the overall run (other indices still
proceed)".  Second: with index `a`'s settings fetch failing by exit code,
the index is skipped by the provisioning pass yet still dispatched to the
document phase (line 279 iterates the configured list regardless), its task
issuing document-phase requests — refuting "excluded from the document
phase entirely for this run". -/
theorem metadata_failure_counterexample :
    mainRun envC3 1 = [RunEvent.fetchMeta "a"]
    ∧ mainRun envC3b 1
      = [RunEvent.fetchMeta "a", RunEvent.skipIndex "a",
         RunEvent.dispatch "a", RunEvent.docReq "a" Event.reqOpen,
         RunEvent.docReq "a" Event.reqRefresh] := by
  exact ⟨rfl, rfl⟩

theorem metadata_failure_handling_witness :
    (provisionPass envC3 ["b", "a"] envC3.target).1.take 2
      = [RunEvent.fetchMeta "b", RunEvent.provHead "b"]
    ∧ mainRun envC3 1 = [RunEvent.fetchMeta "a"]
    ∧ (∀ e ∈ mainRun envC3 1, isDocEv e = false)
    ∧ provisionPass envC3b envC3b.sourceIndices envC3b.target
        = ([RunEvent.fetchMeta "a", RunEvent.skipIndex "a"], some ⟨[], true⟩)
    ∧ RunEvent.dispatch "a" ∈ mainRun envC3b 1 := by
  have h := metadata_failure_handling envC3 1 [] "a" ["b"] rfl [] envC3.target rfl
  have h2 := h.2 (by refine ⟨rfl, rfl, rfl⟩)
  have hb := metadata_failure_handling envC3b 1 [] "a" [] rfl [] envC3b.target rfl
  have hb1 := hb.1 (by simp [envC3b])
  refine ⟨rfl, by simpa using h2.1, by simpa using h2.2, ?_, ?_⟩
  · simpa using hb1.1
  · exact hb1.2 [] ⟨[], true⟩ rfl "a" (by simp [envC3b])

/-- C5 amended: when the index is absent and the create response is not
2xx, `create_index_in_os` prints the failure and returns normally — no
exception, no error value consulted by the caller — and the document phase
is driven solely by the configured `indices_to_migrate` list (line 279), so
the index is still dispatched for document migration when configured,
regardless of the provisioning outcome. -/
theorem provision_failure_swallowed (t : Target) (indexName : String)
    (kvs : List (String × J)) (mp : J)
    (hput : t.putOK = false) (habs : ¬ indexName ∈ t.existing) :
    create_index_in_os t indexName ⟨indexName, J.obj kvs, mp⟩
      = .ok (.createFailed, t,
          [.head indexName, .put indexName ⟨cleanSettings kvs, mp⟩])
    ∧ ∀ (env : RunEnv) (fuel : Nat) (evs : List RunEvent) (t' : Target),
        provisionPass env env.sourceIndices env.target = (evs, some t') →
        ∀ i ∈ env.indicesToMigrate,
          RunEvent.dispatch i ∈ mainRun env fuel := by
  constructor
  · simp only [create_index_in_os, clean_index_metadata]
    rw [if_neg (by simp [headStatus, habs])]
    simp [putResult, hput]
  · intro env fuel evs t' hpass i hi
    unfold mainRun
    rw [hpass]
    simp only []
    refine List.mem_append.mpr (Or.inr ?_)
    refine List.mem_flatten.mpr ⟨RunEvent.dispatch i :: docEvents env fuel i,
      List.mem_map.mpr ⟨i, hi, rfl⟩, List.mem_cons_self _ _⟩

/-- A run whose target rejects creates, with the same index configured for
document migration. -/
def envC5 : RunEnv :=
  { sourceIndices := ["a"]
    settingsRes := fun _ => ⟨0, some (J.obj [])⟩
    mappingsRes := fun _ => ⟨0, some (J.obj [])⟩
    target := ⟨[], false⟩
    indicesToMigrate := ["a"]
    docEnv := fun _ => mkEnv ⟨[], 0, fun _ => true, fun _ => true, true, 200⟩ }

/-- C5 counterexample: index `a`'s create request fails (non-2xx), yet the
run trace shows the provisioning failure merely logged
(`provisionDone a createFailed`) followed by `dispatch a` and that index's
document-phase requests — the index's task does not terminate in a failed
state before the document phase; it proceeds to it. -/
theorem provision_failure_still_migrates_counterexample :
    mainRun envC5 1
      = [RunEvent.fetchMeta "a", RunEvent.provHead "a", RunEvent.provPut "a",
         RunEvent.provisionDone "a" .createFailed, RunEvent.dispatch "a",
         RunEvent.docReq "a" Event.reqOpen,
         RunEvent.docReq "a" Event.reqRefresh] := by rfl

theorem provision_failure_swallowed_witness :
    create_index_in_os ⟨[], false⟩ "a" ⟨"a", J.obj [], J.obj []⟩
      = .ok (.createFailed, ⟨[], false⟩,
          [.head "a", .put "a" ⟨cleanSettings [], J.obj []⟩])
    ∧ RunEvent.dispatch "a" ∈ mainRun envC5 1 := by
  have h := provision_failure_swallowed ⟨[], false⟩ "a" [] (J.obj [])
    rfl (by simp)
  refine ⟨h.1, ?_⟩
  exact h.2 envC5 1
    [RunEvent.fetchMeta "a", RunEvent.provHead "a", RunEvent.provPut "a",
     RunEvent.provisionDone "a" .createFailed] ⟨[], false⟩ rfl "a" (by simp [envC5])

end ESMig
